import Mathlib

/-!
Shallow embedding of the EPROC deadline-monitoring scraper
(`src/services/database.ts`, `src/services/scraper.ts`, `src/services/auth.ts`,
`src/services/storage.ts`, `src/parsers/prazo-list.ts`, `src/index.ts`),
together with theorems settling the specification claims about it.

Machine `Map`/`Set` values are modelled as association lists / lists of keys,
the persistent store as explicit state passed through the functions, and the
browser-driven fallible steps as explicit outcome oracles (`Except`), so that
the try/catch structure and the store traffic of the source are visible in the
embedding.
-/

namespace Eproc

/-- Values of `lado_cliente` (requerente, requerido, nao_identificado). -/
inductive Lado where
  | requerente
  | requerido
  | nao_identificado
deriving DecidableEq, Repr

/-- An attachment reference parsed from an event row
(`DocumentoAnexo` in `src/types`): display name, inferred kind, source URL. -/
structure DocumentoAnexo where
  nome : String
  tipo : String
  url : String
deriving DecidableEq, Repr

/-- One row of the procedural history of a case (`EventoProcesso` in `src/types`).
`evento_numero` is nullable (the leading-digits parse can fail), `documentos`
is nullable (the parser stores `null` when no attachment links were found),
`is_prazo_aberto` is the deadline-highlight flag and `evento_referenciado`
the cross-reference extracted from "Refer. ao Evento N". -/
structure EventoProcesso where
  numero_cnj : String
  evento_numero : Option Nat
  usuario : Option String
  data_evento : Option String
  tipo_evento : Option String
  descricao : Option String
  documentos : Option (List DocumentoAnexo)
  is_prazo_aberto : Bool
  evento_referenciado : Option Nat
deriving DecidableEq, Repr

/-- One open-deadline case (`ProcessoAberto` in `src/types`).  The three
represented-side fields (`lado_cliente`, `cliente_nome`, `cliente_cpf`) are
nullable and set later by the correlation/backfill step. -/
structure ProcessoAberto where
  numero_cnj : String
  juizo : String
  requerente_nome : String
  requerente_cpf : String
  requerido_nome : String
  requerido_cpf : String
  lado_cliente : Option Lado
  cliente_nome : Option String
  cliente_cpf : Option String
  classe : String
  assunto : String
  evento_prazo : String
  prazo_dias : Option Nat
  data_envio_requisicao : Option String
  data_inicio_prazo : Option String
  data_final_prazo : Option String
  raw_data : Option String
deriving DecidableEq, Repr

/-- A persisted document record (`DocumentoProcesso` in `src/types`),
identified by its `storage_path`. -/
structure DocumentoProcesso where
  numero_cnj : String
  evento_numero : Nat
  evento_data : Option String
  nome_original : String
  tipo_arquivo : String
  tamanho_bytes : Nat
  storage_path : String
  storage_url : Option String
deriving DecidableEq, Repr

/-! ## Reconciliation (`compareProcessos`, src/services/database.ts:236-262) -/

/-- Result of the EPROC-versus-store comparison (`SyncResult`). -/
structure SyncResult where
  novos : List ProcessoAberto
  removidos : List String
deriving DecidableEq, Repr

/-- Source `compareProcessos` (src/services/database.ts:236-262).  The stored case map
(a JS `Map` keyed by `numero_cnj`) is modelled as an association list;
`dbMap.has k` is membership of `k` among the keys, and `eprocSet` (a JS `Set`)
as the list of extracted identifiers. -/
def compareProcessos (eprocList : List ProcessoAberto)
    (dbMap : List (String × ProcessoAberto)) : SyncResult :=
  let eprocSet : List String := eprocList.map (fun p => p.numero_cnj)
  let novos := eprocList.filter (fun p => !((dbMap.map Prod.fst).contains p.numero_cnj))
  let removidos := (dbMap.map Prod.fst).filter (fun k => !(eprocSet.contains k))
  { novos := novos, removidos := removidos }

/-! ## Event correlation for document download
(`identificarEventosComDocumentos`, src/services/scraper.ts, lines 1125-1168
of the concatenated services) -/

/-- Source `e.evento_numero ?? 0`: the sequence number with the null default of the source. -/
def numeroOuZero (e : EventoProcesso) : Nat :=
  e.evento_numero.getD 0

/-- Source `e.documentos && e.documentos.length > 0`: the attachment list is present
and non-empty. -/
def temDocumentos (e : EventoProcesso) : Bool :=
  decide (0 < (e.documentos.getD []).length)

/-- The events flagged `is_prazo_aberto` whose `evento_referenciado` is not
null (`eventos.filter(e => e.is_prazo_aberto && e.evento_referenciado !== null)`). -/
def prazosAbertosDe (eventos : List EventoProcesso) : List EventoProcesso :=
  eventos.filter (fun e => e.is_prazo_aberto && e.evento_referenciado.isSome)

/-- The referenced event numbers of the open-deadline events
(`prazosAbertos.map(e => e.evento_referenciado!)`). -/
def refsAbertos (eventos : List EventoProcesso) : List Nat :=
  (prazosAbertosDe eventos).map (fun e => e.evento_referenciado.getD 0)

/-- Source `identificarEventosComDocumentos`: returns `[]` on an empty input or when
no open-deadline event with a reference exists; otherwise takes
`Math.min(...)` of the referenced numbers, keeps the events with sequence
number `>=` that minimum and a non-empty attachment list, and sorts them
ascending by sequence number (`(a,b) => (a.evento_numero ?? 0) - (b.evento_numero ?? 0)`,
a stable sort, modelled by `List.mergeSort`). -/
def identificarEventosComDocumentos (eventos : List EventoProcesso) : List EventoProcesso :=
  if eventos.isEmpty then []
  else
    match refsAbertos eventos with
    | [] => []
    | r :: rs =>
      let eventoRef := rs.foldl Nat.min r
      (eventos.filter (fun e => decide (eventoRef ≤ numeroOuZero e) && temDocumentos e)).mergeSort
        (fun a b => decide (numeroOuZero a ≤ numeroOuZero b))

/-! ## Per-case event filter of `extrairDetalhesProcesso`
(src/services/scraper.ts, lines 969-990 of the concatenated services) -/

/-- Source `const eventoPrazo = todosEventos.find(e => e.is_prazo_aberto);`
`const eventoBase = eventoPrazo?.evento_referenciado ?? 0;` -/
def eventoBaseDe (todosEventos : List EventoProcesso) : Nat :=
  (((todosEventos.find? (fun e => e.is_prazo_aberto)).bind
    (fun e => e.evento_referenciado))).getD 0

/-- Source `eventoBase > 0 ? todosEventos.filter(e => (e.evento_numero ?? 0) >= eventoBase) : todosEventos` -/
def eventosRelevantesDe (todosEventos : List EventoProcesso) : List EventoProcesso :=
  if 0 < eventoBaseDe todosEventos then
    todosEventos.filter (fun e => decide (eventoBaseDe todosEventos ≤ numeroOuZero e))
  else todosEventos

/-! ## Batch upsert of the list-extraction path
(`insertProcessosAbertos`, src/services/database.ts:81-128) -/

/-- The columns of the upsert payload built at src/services/database.ts:99-116.
`lado_cliente`, `cliente_nome` and `cliente_cpf` are deliberately absent
(managed exclusively by `updateLadoCliente`). -/
structure UpsertRow where
  numero_cnj : String
  juizo : String
  requerente_nome : String
  requerente_cpf : String
  requerido_nome : String
  requerido_cpf : String
  classe : String
  assunto : String
  evento_prazo : String
  prazo_dias : Option Nat
  data_envio_requisicao : Option String
  data_inicio_prazo : Option String
  data_final_prazo : Option String
  raw_data : Option String
deriving DecidableEq, Repr

/-- The payload row built from an extracted case. -/
def toUpsertRow (p : ProcessoAberto) : UpsertRow :=
  { numero_cnj := p.numero_cnj
    juizo := p.juizo
    requerente_nome := p.requerente_nome
    requerente_cpf := p.requerente_cpf
    requerido_nome := p.requerido_nome
    requerido_cpf := p.requerido_cpf
    classe := p.classe
    assunto := p.assunto
    evento_prazo := p.evento_prazo
    prazo_dias := p.prazo_dias
    data_envio_requisicao := p.data_envio_requisicao
    data_inicio_prazo := p.data_inicio_prazo
    data_final_prazo := p.data_final_prazo
    raw_data := p.raw_data }

/-- The `processos_abertos` table, keyed by `numero_cnj`. -/
abbrev DbProcessos := String → Option ProcessoAberto

/-- The dedup pass at src/services/database.ts:84-89: a JS `Map` keeps the
first-insertion position of a key and the last value set for it. -/
def dedupePorCnj (processos : List ProcessoAberto) : List ProcessoAberto :=
  processos.foldl
    (fun acc p =>
      if acc.any (fun q => q.numero_cnj == p.numero_cnj) then
        acc.map (fun q => if q.numero_cnj == p.numero_cnj then p else q)
      else acc ++ [p])
    []

/-- Source `upsert(..., onConflict: numero_cnj)` applied to one payload row: the
interface contract of the upsert-by-key of the store (spec section 6) — on conflict
it updates exactly the payload columns of the existing record, on no conflict
it inserts a record whose absent columns default to null. -/
def aplicarUpsertRow (db : DbProcessos) (row : UpsertRow) : DbProcessos :=
  fun k =>
    if k = row.numero_cnj then
      some (match db row.numero_cnj with
        | some antigo =>
          { antigo with
            juizo := row.juizo
            requerente_nome := row.requerente_nome
            requerente_cpf := row.requerente_cpf
            requerido_nome := row.requerido_nome
            requerido_cpf := row.requerido_cpf
            classe := row.classe
            assunto := row.assunto
            evento_prazo := row.evento_prazo
            prazo_dias := row.prazo_dias
            data_envio_requisicao := row.data_envio_requisicao
            data_inicio_prazo := row.data_inicio_prazo
            data_final_prazo := row.data_final_prazo
            raw_data := row.raw_data }
        | none =>
          { numero_cnj := row.numero_cnj
            juizo := row.juizo
            requerente_nome := row.requerente_nome
            requerente_cpf := row.requerente_cpf
            requerido_nome := row.requerido_nome
            requerido_cpf := row.requerido_cpf
            lado_cliente := none
            cliente_nome := none
            cliente_cpf := none
            classe := row.classe
            assunto := row.assunto
            evento_prazo := row.evento_prazo
            prazo_dias := row.prazo_dias
            data_envio_requisicao := row.data_envio_requisicao
            data_inicio_prazo := row.data_inicio_prazo
            data_final_prazo := row.data_final_prazo
            raw_data := row.raw_data })
    else db k

/-- Source `insertProcessosAbertos` (src/services/database.ts:81-128): dedup by
`numero_cnj` keeping the last record, then upsert each payload row. -/
def insertProcessosAbertos (db : DbProcessos) (processos : List ProcessoAberto) : DbProcessos :=
  ((dedupePorCnj processos).map toUpsertRow).foldl aplicarUpsertRow db

/-! ## Per-case failure isolation
(`extrairDetalhesProcesso` / `extrairDetalhesProcessos`,
src/services/scraper.ts, lines 955-1114 of the concatenated services) -/

/-- The value returned by `extrairDetalhesProcesso` for one case. -/
structure ResultadoDetalhes where
  eventos : List EventoProcesso
  ladoAtualizado : Bool
  documentosBaixados : Nat
deriving DecidableEq, Repr

/-- The browser-driven body of the per-case try block (navigation, parsing,
store writes, downloads), abstracted as an outcome oracle: `.error` is any
exception raised while extracting that case. -/
abbrev ResultadoExtracao := ProcessoAberto → Except String ResultadoDetalhes

/-- Source `extrairDetalhesProcesso`: the catch at lines 1038-1042 turns any
exception into the empty per-case result (no events, side not updated,
zero documents). -/
def extrairDetalhesProcessoR (resultado : ResultadoExtracao)
    (processo : ProcessoAberto) : ResultadoDetalhes :=
  match resultado processo with
  | .ok r => r
  | .error _ => { eventos := [], ladoAtualizado := false, documentosBaixados := 0 }

/-- The value returned by `extrairDetalhesProcessos` for one batch. -/
structure ResultadoLote where
  totalEventos : Nat
  ladosAtualizados : Nat
  totalDocumentos : Nat
  todosProcessados : Bool
deriving DecidableEq, Repr

/-- Source `extrairDetalhesProcessos` (lines 1050-1114): drop the cases already
having events (skip set), stop early when no candidate remains, take at most
`maxPorCiclo` candidates, and accumulate each per-case result in a loop;
`todosProcessados` is `restantes === 0`. -/
def extrairDetalhesProcessos (resultado : ResultadoExtracao)
    (processos : List ProcessoAberto) (maxPorCiclo : Nat)
    (processosComEventos : List String) : ResultadoLote :=
  let candidatos := processos.filter (fun p => !(processosComEventos.contains p.numero_cnj))
  if candidatos.isEmpty then
    { totalEventos := 0, ladosAtualizados := 0, totalDocumentos := 0, todosProcessados := true }
  else
    let ordenados := candidatos.take maxPorCiclo
    let tot := ordenados.foldl
      (fun acc p =>
        let r := extrairDetalhesProcessoR resultado p
        (acc.1 + r.eventos.length,
         acc.2.1 + (if r.ladoAtualizado then 1 else 0),
         acc.2.2 + r.documentosBaixados))
      ((0 : Nat), (0 : Nat), (0 : Nat))
    { totalEventos := tot.1
      ladosAtualizados := tot.2.1
      totalDocumentos := tot.2.2
      todosProcessados := decide (candidatos.length - ordenados.length = 0) }

/-! ## Event persistence for one detail pass
(`syncEventosProcesso`, src/services/database.ts:343-385) -/

/-- Source `syncEventosProcesso`: returns the store unchanged on an empty input
(`if (eventos.length === 0) return 0;`), otherwise deletes every stored event
of the case and inserts the fresh ones. -/
def syncEventosProcesso (store : List EventoProcesso) (cnj : String)
    (eventos : List EventoProcesso) : List EventoProcesso :=
  if eventos.isEmpty then store
  else store.filter (fun e => e.numero_cnj != cnj) ++ eventos

/-- The call site in `extrairDetalhesProcesso` (lines 987-990):
`if (eventosRelevantes.length > 0) await syncEventosProcesso(...)`. -/
def persistirEventosPasso (store : List EventoProcesso) (cnj : String)
    (eventosRelevantes : List EventoProcesso) : List EventoProcesso :=
  if 0 < eventosRelevantes.length then syncEventosProcesso store cnj eventosRelevantes
  else store

/-! ## Document de-duplication
(`gerarStoragePath` / `documentoJaBaixado` / the attachment loop of
`processarDocumentosProcesso`, src/services/storage.ts:536-547,
src/services/database.ts:470-484, scraper lines 1303-1375) -/

/-- Source regex replace on `numeroCnj` dropping every non-digit. -/
def cnjSanitizado (numeroCnj : String) : String :=
  String.mk (numeroCnj.data.filter Char.isDigit)

/-- Source regex replace on `nomeDocumento` mapping every character outside letters, digits, dot, underscore and hyphen to an underscore. -/
def nomeSanitizado (nomeDocumento : String) : String :=
  String.mk (nomeDocumento.data.map (fun c =>
    if c.isAlphanum || c == '.' || c == '_' || c == '-' then c else '_'))

/-- Source `gerarStoragePath` (src/services/storage.ts:536-547):
`{digits of cnj}/evento_{n}/{sanitized name}`. -/
def gerarStoragePath (numeroCnj : String) (eventoNumero : Nat)
    (nomeDocumento : String) : String :=
  cnjSanitizado numeroCnj ++ "/evento_" ++ toString eventoNumero ++ "/" ++
    nomeSanitizado nomeDocumento

/-- Source `documentoJaBaixado` (src/services/database.ts:470-484): a row with this
`storage_path` exists in `documentos_processo`. -/
def documentoJaBaixado (documentosDb : List DocumentoProcesso)
    (storagePath : String) : Bool :=
  documentosDb.any (fun d => d.storage_path == storagePath)

/-- The externally visible steps of one iteration of the attachment loop. -/
inductive AcaoDocumento where
  | verificarStore (storagePath : String)
  | fetchRede (url : String)
  | uploadStorage (storagePath : String)
  | salvarRegistro (storagePath : String)
deriving DecidableEq, Repr

/-- How one iteration of the attachment loop ends. -/
inductive StatusDocumento where
  | semUrl
  | jaBaixado
  | falhaDownload
  | falhaUpload
  | baixado
deriving DecidableEq, Repr

/-- One iteration of the attachment loop of `processarDocumentosProcesso`
(scraper lines 1311-1374), returning the ordered trace of store/network steps
it performs and its outcome.  `rede` models `baixarDocumento` (`none` is a
failed or empty capture), `uploadOk` models the storage upload outcome. -/
def processarDocumento (documentosDb : List DocumentoProcesso)
    (rede : String → Option Nat) (uploadOk : Bool) (numeroCnj : String)
    (eventoNumero : Nat) (doc : DocumentoAnexo) :
    List AcaoDocumento × StatusDocumento :=
  if doc.url = "" then ([], .semUrl)
  else
    let storagePath := gerarStoragePath numeroCnj eventoNumero (doc.nome ++ ".pdf")
    if documentoJaBaixado documentosDb storagePath then
      ([.verificarStore storagePath], .jaBaixado)
    else
      match rede doc.url with
      | none => ([.verificarStore storagePath, .fetchRede doc.url], .falhaDownload)
      | some _ =>
        if uploadOk then
          ([.verificarStore storagePath, .fetchRede doc.url, .uploadStorage storagePath,
            .salvarRegistro storagePath], .baixado)
        else
          ([.verificarStore storagePath, .fetchRede doc.url, .uploadStorage storagePath],
            .falhaUpload)

/-! ## List parsing (`parseListaPrazos`, src/parsers/prazo-list.ts:88-229) -/

/-- The docket regex `/(\d{7}-\d{2}\.\d{4}\.\d\.\d{2}\.\d{4})/` as a
fixed-length character pattern. -/
def padraoCnj : List (Char → Bool) :=
  List.replicate 7 Char.isDigit ++ [fun c => c == '-'] ++
  List.replicate 2 Char.isDigit ++ [fun c => c == '.'] ++
  List.replicate 4 Char.isDigit ++ [fun c => c == '.'] ++
  List.replicate 1 Char.isDigit ++ [fun c => c == '.'] ++
  List.replicate 2 Char.isDigit ++ [fun c => c == '.'] ++
  List.replicate 4 Char.isDigit

/-- The pattern matches the leading characters of `cs`. -/
def casaPadrao : List (Char → Bool) → List Char → Bool
  | [], _ => true
  | _ :: _, [] => false
  | p :: ps, c :: cs => p c && casaPadrao ps cs

/-- Predicate: `m` is exactly a docket number: same length as the pattern and matching. -/
def casaCnjExato (m : List Char) : Bool :=
  m.length == padraoCnj.length && casaPadrao padraoCnj m

/-- Source `String.match` with the docket regex: the leftmost substring matching the
fixed-length pattern, if any. -/
def buscaCnj : List Char → Option (List Char)
  | [] => none
  | c :: cs =>
    if casaPadrao padraoCnj (c :: cs) then some ((c :: cs).take padraoCnj.length)
    else buscaCnj cs

/-- One parsed row of the deadline-list table.  The party/juizo sub-fields are
carried through `processoCell` (the raw innerHTML of the case cell); the other
cells are plain text reads. -/
structure LinhaPrazo where
  numero_cnj : String
  processoCell : String
  classe : String
  assunto : String
  evento_prazo : String
  data_envio : String
  inicio_prazo : String
  final_prazo : String
deriving DecidableEq, Repr

/-- One iteration of the row loop of `parseListaPrazos`
(src/parsers/prazo-list.ts:96-164): rows with fewer than 7 cells are skipped
(`if (cells.length < 7) continue`), the docket number is the leftmost match of
the docket regex in the case cell `cells[1].innerHTML` and rows without one
are skipped (`if (!numeroCnj) continue`). -/
def parseLinha (cells : List String) : Option LinhaPrazo :=
  if cells.length < 7 then none
  else
    match buscaCnj ((cells.get? 1).getD "").data with
    | none => none
    | some m =>
      some { numero_cnj := String.mk m
             processoCell := (cells.get? 1).getD ""
             classe := (cells.get? 2).getD ""
             assunto := (cells.get? 3).getD ""
             evento_prazo := (cells.get? 4).getD ""
             data_envio := (cells.get? 5).getD ""
             inicio_prazo := (cells.get? 6).getD ""
             final_prazo := (cells.get? 7).getD "" }

/-- The row loop over the whole table: a skipped row leaves no record. -/
def parseListaPrazos (rows : List (List String)) : List LinhaPrazo :=
  rows.filterMap parseLinha

/-! ## TOTP secret sanitization (`sanitizeTotpSecret`, src/services/auth.ts:13-18) -/

/-- The JS regex class `\s` (whitespace). -/
def espacoJs (c : Char) : Bool :=
  [' ', '\t', '\n', '\r', '\x0b', '\x0c', ' ', ' ', ' ', ' ',
   ' ', ' ', ' ', ' ', ' ', ' ', ' ', ' ',
   ' ', ' ', ' ', ' ', ' ', '　', '﻿'].contains c

/-- Source `sanitizeTotpSecret` (src/services/auth.ts:13-18):
the secret with whitespace, underscore and hyphen removed, then uppercased (ASCII). -/
def sanitizeTotpSecret (secret : String) : String :=
  String.mk ((secret.data.filter (fun c => !(espacoJs c || c == '_' || c == '-'))).map
    Char.toUpper)

/-- The Base32 alphabet required by the TOTP algorithm: `A`-`Z` and `2`-`7`. -/
def isBase32Char (c : Char) : Bool :=
  ('A' ≤ c && c ≤ 'Z') || ('2' ≤ c && c ≤ '7')

/-! ## Cycle guard (`executarCiclo`, src/index.ts:16-134) -/

/-- An externally visible operation of a cycle. -/
inductive OperacaoCiclo where
  | navegador (descricao : String)
  | banco (descricao : String)
deriving DecidableEq, Repr

/-- The body of a cycle (login, extraction, reconciliation, detail passes),
abstracted as the trace of browser/store operations it would perform and its
outcome (`.ok todosProcessados` or an uncaught `.error`). -/
structure CorpoCiclo where
  operacoes : List OperacaoCiclo
  resultado : Except String Bool

/-- Source `executarCiclo` (src/index.ts:22-134): when `isRunning` is set the call
returns `false` at once and performs nothing; otherwise it creates the
RunRecord, runs the body, finalizes the RunRecord, closes the browser and
clears the flag.  Result: (returned value, operations performed, flag after). -/
def executarCiclo (isRunning : Bool) (corpo : CorpoCiclo) :
    Bool × List OperacaoCiclo × Bool :=
  if isRunning then (false, [], isRunning)
  else
    let abertura := OperacaoCiclo.banco "createScraperRun"
    let fechamento := [OperacaoCiclo.banco "updateScraperRun",
                       OperacaoCiclo.navegador "closeBrowser"]
    match corpo.resultado with
    | .ok todosProcessados => (todosProcessados, abertura :: corpo.operacoes ++ fechamento, false)
    | .error _ => (false, abertura :: corpo.operacoes ++ fechamento, false)

/-! ## Concrete fixtures used by witnesses and counterexamples -/

/-- A baseline extracted case for concrete instances. -/
def processoBase : ProcessoAberto :=
  { numero_cnj := "0000001-11.2024.8.24.0001"
    juizo := "CRM1CIV1J"
    requerente_nome := "FULANO DE TAL"
    requerente_cpf := "11122233344"
    requerido_nome := "BELTRANO DA SILVA"
    requerido_cpf := "55566677788"
    lado_cliente := none
    cliente_nome := none
    cliente_cpf := none
    classe := "Execucao de Titulo"
    assunto := "Obrigacoes"
    evento_prazo := "Prazo de 15 dias"
    prazo_dias := some 15
    data_envio_requisicao := none
    data_inicio_prazo := none
    data_final_prazo := none
    raw_data := none }

/-- The baseline case with another docket number. -/
def processoCnj (cnj : String) : ProcessoAberto :=
  { processoBase with numero_cnj := cnj }

/-- A concrete attachment. -/
def docTeste : DocumentoAnexo :=
  { nome := "PET1", tipo := "pdf", url := "https://eproc.example/doc1" }

/-- A concrete procedural event of the baseline case. -/
def eventoTeste (num : Option Nat) (flag : Bool) (ref : Option Nat)
    (docs : Option (List DocumentoAnexo)) : EventoProcesso :=
  { numero_cnj := "0000001-11.2024.8.24.0001"
    evento_numero := num
    usuario := none
    data_evento := none
    tipo_evento := none
    descricao := none
    documentos := docs
    is_prazo_aberto := flag
    evento_referenciado := ref }

/-- The correlation example of the spec: three deadline notices referencing bases
91, 95 and 88, plus plain events with and without attachments. -/
def eventosTesteC1 : List EventoProcesso :=
  [eventoTeste (some 108) true (some 91) none,
   eventoTeste (some 109) true (some 95) none,
   eventoTeste (some 110) true (some 88) (some [docTeste]),
   eventoTeste (some 87) false none (some [docTeste]),
   eventoTeste (some 90) false none (some [docTeste]),
   eventoTeste (some 100) false none none]

/-- A history whose only deadline-flagged event carries no cross-reference. -/
def eventosTesteC3 : List EventoProcesso :=
  [eventoTeste (some 1) true none none,
   eventoTeste (some 2) false none none]

/-- A stored event of the baseline case predating the current pass. -/
def eventoAntigoC6 : EventoProcesso :=
  eventoTeste (some 5) false none none

/-- A stored event belonging to a different case. -/
def eventoOutroC6 : EventoProcesso :=
  { eventoTeste (some 1) false none none with numero_cnj := "0000009-99.2024.8.24.0009" }

/-- A stored-document row whose path is the deterministic path of
`docTeste` at event 110 of the baseline case. -/
def documentoBaixadoC7 : DocumentoProcesso :=
  { numero_cnj := "0000001-11.2024.8.24.0001"
    evento_numero := 110
    evento_data := none
    nome_original := "PET1"
    tipo_arquivo := "pdf"
    tamanho_bytes := 4242
    storage_path := "00000011120248240001/evento_110/PET1.pdf"
    storage_url := none }

/-- An extraction oracle that fails on one case and succeeds elsewhere. -/
def resultadoTesteC5 : ResultadoExtracao :=
  fun q =>
    if q.numero_cnj = "0000002-22.2024.8.24.0002" then Except.error "Timeout aguardando nova aba"
    else Except.ok { eventos := [eventoTeste (some 3) false none none],
                     ladoAtualizado := true, documentosBaixados := 1 }

/-- A store with one record that already has its represented side set. -/
def dbTesteC4 : DbProcessos :=
  fun k =>
    if k = "0000001-11.2024.8.24.0001" then
      some { processoBase with
        lado_cliente := some Lado.requerente
        cliente_nome := some "FULANO DE TAL"
        cliente_cpf := some "11122233344" }
    else none

/-- A stored case map with two records, one of which no longer appears in the
extracted list. -/
def dbTesteC2 : List (String × ProcessoAberto) :=
  [("0000002-22.2024.8.24.0002", processoCnj "0000002-22.2024.8.24.0002"),
   ("0000003-33.2024.8.24.0003", processoCnj "0000003-33.2024.8.24.0003")]

/-- A well-formed deadline-list table row (8 cells, docket in the case cell). -/
def cellsTesteC8 : List String :=
  ["chk", "<a href=x>1234567-89.0123.4.56.7890</a><br><b>Juizo: </b>CRM1CIV1J",
   "Procedimento Comum", "Dano Material", "Evento 10 - Prazo 15 dias",
   "01/01/2025 10:00:00", "02/01/2025 00:00:00", "17/01/2025 23:59:59"]

/-- A 6-cell row whose case cell nevertheless holds a well-formed docket. -/
def cellsCurtaC8 : List String :=
  ["chk", "1234567-89.0123.4.56.7890", "Procedimento Comum", "Dano Material",
   "Evento 10 - Prazo 15 dias", "01/01/2025 10:00:00"]

end Eproc

namespace Eproc

/-! ## Theorems -/

/-- Claim C2: For every pair of an extracted case list and a stored case map keyed
by case identifier, the reconciliation comparison returns `novos` = exactly the
extracted records whose identifier is not a key of the store, and `removidos` =
exactly the stored identifiers that do not occur among the extracted
identifiers; the identifier sets of `novos` and `removidos` are disjoint. -/
theorem compareProcessos_diffs (eprocList : List ProcessoAberto)
    (dbMap : List (String × ProcessoAberto)) :
    (∀ p, p ∈ (compareProcessos eprocList dbMap).novos ↔
      p ∈ eprocList ∧ p.numero_cnj ∉ dbMap.map Prod.fst) ∧
    (∀ k, k ∈ (compareProcessos eprocList dbMap).removidos ↔
      k ∈ dbMap.map Prod.fst ∧ k ∉ eprocList.map (fun p => p.numero_cnj)) ∧
    (∀ p, p ∈ (compareProcessos eprocList dbMap).novos →
      p.numero_cnj ∉ (compareProcessos eprocList dbMap).removidos) := by
  refine ⟨?_, ?_, ?_⟩
  · intro p
    simp [compareProcessos, List.mem_filter]
  · intro k
    simp [compareProcessos, List.mem_filter]
  · intro p hp hrem
    simp only [compareProcessos, List.mem_filter] at hp hrem
    have h1 := hp.2
    have h2 := hrem.1
    simp at h1 h2
    obtain ⟨x, hx⟩ := h2
    exact h1 x hx

/-- Witness for C2 at a concrete pair: `processoBase` is newly extracted,
the stored id `0000003-33.2024.8.24.0003` vanished from the list, and no new
record id is among the removed ids. -/
theorem compareProcessos_diffs_witness :
    processoBase ∈
      (compareProcessos [processoBase, processoCnj "0000002-22.2024.8.24.0002"]
        dbTesteC2).novos ∧
    "0000003-33.2024.8.24.0003" ∈
      (compareProcessos [processoBase, processoCnj "0000002-22.2024.8.24.0002"]
        dbTesteC2).removidos ∧
    processoBase.numero_cnj ∉
      (compareProcessos [processoBase, processoCnj "0000002-22.2024.8.24.0002"]
        dbTesteC2).removidos := by
  have h := compareProcessos_diffs [processoBase, processoCnj "0000002-22.2024.8.24.0002"]
    dbTesteC2
  exact ⟨(h.1 processoBase).mpr ⟨by decide, by decide⟩,
    (h.2.1 "0000003-33.2024.8.24.0003").mpr ⟨by decide, by decide⟩,
    h.2.2 processoBase ((h.1 processoBase).mpr ⟨by decide, by decide⟩)⟩

/-- Claim C10: Whenever the cycle function is invoked while the run-in-progress
flag is set by an active cycle, the invocation is a no-op: it returns `false`
(not fully drained) immediately and performs no browser or store
operation, whatever the cycle body would have done. -/
theorem executarCiclo_guard (corpo : CorpoCiclo) :
    executarCiclo true corpo = (false, [], true) := rfl

/-- Claim C9, code bug: The sanitization applied to the TOTP shared secret does
not restrict it to the Base32 alphabet: on the secret `"abc1"` it returns
`"ABC1"`, which contains the digit 1, a character outside `A`-`Z` and `2`-`7`,
contradicting the doc comment of the function itself. -/
theorem sanitizeTotpSecret_nao_base32 :
    sanitizeTotpSecret "abc1" = "ABC1" ∧
    (sanitizeTotpSecret "abc1").data.all isBase32Char = false := by
  decide

/-- Counterexample to C3 as stated: in `eventosTesteC3` an event is flagged
`is_prazo_aberto`, yet no flagged event carries a referenced-event-number, so
no base with the claimed property exists — while the code keeps all events. -/
theorem eventosRelevantesDe_cex :
    (∃ e ∈ eventosTesteC3, e.is_prazo_aberto = true) ∧
    eventosRelevantesDe eventosTesteC3 = eventosTesteC3 ∧
    ¬∃ base, (∃ e ∈ eventosTesteC3, e.is_prazo_aberto = true ∧
        e.evento_referenciado = some base) ∧
      eventosRelevantesDe eventosTesteC3 =
        eventosTesteC3.filter (fun e => decide (base ≤ numeroOuZero e)) := by
  refine ⟨⟨eventoTeste (some 1) true none none, by decide, by decide⟩, by decide, ?_⟩
  rintro ⟨base, ⟨e, he, hflag, href⟩, -⟩
  simp only [eventosTesteC3, List.mem_cons, List.mem_singleton] at he
  rcases he with he | he | he
  · subst he; simp [eventoTeste] at href
  · subst he; simp [eventoTeste] at hflag
  · simp at he

/-- Claim C3, amended: The persisted-event filter of the detail extractor: if no
event is flagged `is_prazo_aberto`, or the first flagged event has no
referenced-event-number, all parsed events are kept; otherwise exactly the
events whose sequence number (0 when absent) is `>=` the number referenced by
the first flagged event are kept. -/
theorem eventosRelevantesDe_spec (todosEventos : List EventoProcesso) :
    match todosEventos.find? (fun e => e.is_prazo_aberto) with
    | none => eventosRelevantesDe todosEventos = todosEventos
    | some f =>
      match f.evento_referenciado with
      | none => eventosRelevantesDe todosEventos = todosEventos
      | some r => eventosRelevantesDe todosEventos =
          todosEventos.filter (fun e => decide (r ≤ numeroOuZero e)) := by
  rcases hf : todosEventos.find? (fun e => e.is_prazo_aberto) with - | f
  · rw [hf]
    show eventosRelevantesDe todosEventos = todosEventos
    have hb : eventoBaseDe todosEventos = 0 := by simp [eventoBaseDe, hf]
    simp [eventosRelevantesDe, hb]
  · rw [hf]
    show (match f.evento_referenciado with
      | none => eventosRelevantesDe todosEventos = todosEventos
      | some r => eventosRelevantesDe todosEventos =
          todosEventos.filter (fun e => decide (r ≤ numeroOuZero e)))
    rcases href : f.evento_referenciado with - | r
    · show eventosRelevantesDe todosEventos = todosEventos
      have hb : eventoBaseDe todosEventos = 0 := by simp [eventoBaseDe, hf, href]
      simp [eventosRelevantesDe, hb]
    · show eventosRelevantesDe todosEventos =
        todosEventos.filter (fun e => decide (r ≤ numeroOuZero e))
      have hb : eventoBaseDe todosEventos = r := by simp [eventoBaseDe, hf, href]
      rcases r with - | r
      · have h0 : eventosRelevantesDe todosEventos = todosEventos := by
          simp [eventosRelevantesDe, hb]
        rw [h0]
        exact (List.filter_eq_self.mpr (fun a _ => by simp)).symm
      · simp [eventosRelevantesDe, hb]

/-- Counterexample to C6 as stated: a pass whose filtered event set is empty
leaves the previously stored events of the case in place instead of deleting
and replacing them. -/
theorem persistirEventosPasso_cex :
    persistirEventosPasso [eventoAntigoC6] "0000001-11.2024.8.24.0001" [] =
      [eventoAntigoC6] ∧
    ¬((persistirEventosPasso [eventoAntigoC6] "0000001-11.2024.8.24.0001" []).filter
        (fun e => e.numero_cnj == "0000001-11.2024.8.24.0001") = []) := by
  decide

/-- Claim C6, amended: On a detail-extraction pass that persists a non-empty
event set, every stored event of the case is deleted and replaced by exactly
the fresh set, events of other cases are untouched, and repeating the pass
changes nothing more (no duplicates across repeated partial runs); a pass
with an empty set leaves the store unchanged. -/
theorem persistirEventosPasso_substitui (store : List EventoProcesso) (cnj : String)
    (eventos : List EventoProcesso) (h : eventos ≠ [])
    (hall : ∀ e ∈ eventos, e.numero_cnj = cnj) :
    (persistirEventosPasso store cnj eventos).filter
      (fun e => e.numero_cnj == cnj) = eventos ∧
    (persistirEventosPasso store cnj eventos).filter
      (fun e => e.numero_cnj != cnj) = store.filter (fun e => e.numero_cnj != cnj) ∧
    persistirEventosPasso (persistirEventosPasso store cnj eventos) cnj eventos =
      persistirEventosPasso store cnj eventos := by
  have hlen : 0 < eventos.length := List.length_pos.mpr h
  have hne : eventos.isEmpty = false := by
    cases eventos with
    | nil => exact absurd rfl h
    | cons a l => rfl
  have hpasso : persistirEventosPasso store cnj eventos =
      store.filter (fun e => e.numero_cnj != cnj) ++ eventos := by
    simp [persistirEventosPasso, syncEventosProcesso, hlen, hne]
  have h1 : (store.filter (fun e => e.numero_cnj != cnj)).filter
      (fun e => e.numero_cnj == cnj) = [] := by
    rw [List.filter_eq_nil_iff]
    intro a ha
    have := (List.mem_filter.mp ha).2
    simp only [bne_iff_ne, ne_eq] at this
    simp [this]
  have h2 : eventos.filter (fun e => e.numero_cnj == cnj) = eventos :=
    List.filter_eq_self.mpr (fun a ha => by simp [hall a ha])
  have h3 : eventos.filter (fun e => e.numero_cnj != cnj) = [] := by
    rw [List.filter_eq_nil_iff]
    intro a ha
    simp [hall a ha]
  have h4 : (store.filter (fun e => e.numero_cnj != cnj)).filter
      (fun e => e.numero_cnj != cnj) = store.filter (fun e => e.numero_cnj != cnj) :=
    List.filter_eq_self.mpr (fun a ha => (List.mem_filter.mp ha).2)
  refine ⟨?_, ?_, ?_⟩
  · rw [hpasso, List.filter_append, h1, h2, List.nil_append]
  · rw [hpasso, List.filter_append, h3, h4, List.append_nil]
  · rw [hpasso]
    have hpasso2 : persistirEventosPasso
        (store.filter (fun e => e.numero_cnj != cnj) ++ eventos) cnj eventos =
        (store.filter (fun e => e.numero_cnj != cnj) ++ eventos).filter
          (fun e => e.numero_cnj != cnj) ++ eventos := by
      simp [persistirEventosPasso, syncEventosProcesso, hlen, hne]
    rw [hpasso2, List.filter_append, h3, h4, List.append_nil]

/-- Witness for the amended C6 at a concrete store holding an old event of the
case and an event of another case. -/
theorem persistirEventosPasso_substitui_witness :
    (persistirEventosPasso [eventoAntigoC6, eventoOutroC6] "0000001-11.2024.8.24.0001"
      [eventoTeste (some 10) false none none]).filter
      (fun e => e.numero_cnj == "0000001-11.2024.8.24.0001") =
      [eventoTeste (some 10) false none none] ∧
    (persistirEventosPasso [eventoAntigoC6, eventoOutroC6] "0000001-11.2024.8.24.0001"
      [eventoTeste (some 10) false none none]).filter
      (fun e => e.numero_cnj != "0000001-11.2024.8.24.0001") =
      [eventoAntigoC6, eventoOutroC6].filter
        (fun e => e.numero_cnj != "0000001-11.2024.8.24.0001") ∧
    persistirEventosPasso
      (persistirEventosPasso [eventoAntigoC6, eventoOutroC6] "0000001-11.2024.8.24.0001"
        [eventoTeste (some 10) false none none])
      "0000001-11.2024.8.24.0001" [eventoTeste (some 10) false none none] =
      persistirEventosPasso [eventoAntigoC6, eventoOutroC6] "0000001-11.2024.8.24.0001"
        [eventoTeste (some 10) false none none] :=
  persistirEventosPasso_substitui [eventoAntigoC6, eventoOutroC6]
    "0000001-11.2024.8.24.0001" [eventoTeste (some 10) false none none]
    (by decide) (by decide)

/-- Claim C7: For every attachment (with a URL) whose deterministic storage path
is already recorded in the document store, the attachment loop checks the
store first and stops there: its trace is exactly the store check — zero
network fetches — and the outcome reports the document as already
downloaded. -/
theorem processarDocumento_dedup (documentosDb : List DocumentoProcesso)
    (rede : String → Option Nat) (uploadOk : Bool) (numeroCnj : String)
    (eventoNumero : Nat) (doc : DocumentoAnexo) (hurl : ¬doc.url = "")
    (h : documentoJaBaixado documentosDb
      (gerarStoragePath numeroCnj eventoNumero (doc.nome ++ ".pdf")) = true) :
    processarDocumento documentosDb rede uploadOk numeroCnj eventoNumero doc =
      ([AcaoDocumento.verificarStore
          (gerarStoragePath numeroCnj eventoNumero (doc.nome ++ ".pdf"))],
        StatusDocumento.jaBaixado) ∧
    ∀ url, AcaoDocumento.fetchRede url ∉
      (processarDocumento documentosDb rede uploadOk numeroCnj eventoNumero doc).1 := by
  have hres : processarDocumento documentosDb rede uploadOk numeroCnj eventoNumero doc =
      ([AcaoDocumento.verificarStore
          (gerarStoragePath numeroCnj eventoNumero (doc.nome ++ ".pdf"))],
        StatusDocumento.jaBaixado) := by
    simp [processarDocumento, hurl, h]
  refine ⟨hres, ?_⟩
  intro url
  rw [hres]
  simp

/-- Witness for C7: the path of `docTeste` at event 110 of the baseline case
is already stored, so its processing is exactly the store check. -/
theorem processarDocumento_dedup_witness :
    processarDocumento [documentoBaixadoC7] (fun _ => some 4242) true
      "0000001-11.2024.8.24.0001" 110 docTeste =
      ([AcaoDocumento.verificarStore
          (gerarStoragePath "0000001-11.2024.8.24.0001" 110 ("PET1" ++ ".pdf"))],
        StatusDocumento.jaBaixado) ∧
    ∀ url, AcaoDocumento.fetchRede url ∉
      (processarDocumento [documentoBaixadoC7] (fun _ => some 4242) true
        "0000001-11.2024.8.24.0001" 110 docTeste).1 :=
  processarDocumento_dedup [documentoBaixadoC7] (fun _ => some 4242) true
    "0000001-11.2024.8.24.0001" 110 docTeste (by decide) (by decide)

/-- One upsert payload row never touches the represented-side fields of an
existing record at any key. -/
theorem aplicarUpsertRow_preserva (db : DbProcessos) (row : UpsertRow)
    (cnj : String) (r : ProcessoAberto) (h : db cnj = some r) :
    ∃ r2, aplicarUpsertRow db row cnj = some r2 ∧
      r2.lado_cliente = r.lado_cliente ∧ r2.cliente_nome = r.cliente_nome ∧
      r2.cliente_cpf = r.cliente_cpf := by
  by_cases hk : cnj = row.numero_cnj
  · subst hk
    refine ⟨{ r with
      juizo := row.juizo
      requerente_nome := row.requerente_nome
      requerente_cpf := row.requerente_cpf
      requerido_nome := row.requerido_nome
      requerido_cpf := row.requerido_cpf
      classe := row.classe
      assunto := row.assunto
      evento_prazo := row.evento_prazo
      prazo_dias := row.prazo_dias
      data_envio_requisicao := row.data_envio_requisicao
      data_inicio_prazo := row.data_inicio_prazo
      data_final_prazo := row.data_final_prazo
      raw_data := row.raw_data }, ?_, rfl, rfl, rfl⟩
    simp [aplicarUpsertRow, h]
  · exact ⟨r, by simp [aplicarUpsertRow, hk, h], rfl, rfl, rfl⟩

/-- Folding any sequence of upsert payload rows over the store never touches
the represented-side fields of an existing record. -/
theorem aplicarUpsertRows_preserva (rows : List UpsertRow) (db : DbProcessos)
    (cnj : String) (r : ProcessoAberto) (h : db cnj = some r) :
    ∃ r2, (rows.foldl aplicarUpsertRow db) cnj = some r2 ∧
      r2.lado_cliente = r.lado_cliente ∧ r2.cliente_nome = r.cliente_nome ∧
      r2.cliente_cpf = r.cliente_cpf := by
  induction rows generalizing db r with
  | nil => exact ⟨r, h, rfl, rfl, rfl⟩
  | cons row rows ih =>
    obtain ⟨r1, h1, hl1, hn1, hc1⟩ := aplicarUpsertRow_preserva db row cnj r h
    obtain ⟨r2, h2, hl2, hn2, hc2⟩ := ih (aplicarUpsertRow db row) r1 h1
    exact ⟨r2, h2, hl2.trans hl1, hn2.trans hn1, hc2.trans hc1⟩

/-- Claim C4: For every input case list and every case record already stored
with non-null represented-side fields, the batch upsert of the
list-extraction/reconciliation path leaves `lado_cliente`, `cliente_nome`
and `cliente_cpf` unchanged: its payload carries only list-derived columns
(see `UpsertRow`), never the represented-side ones. -/
theorem insertProcessosAbertos_preserva_lado (db : DbProcessos)
    (processos : List ProcessoAberto) (cnj : String) (r : ProcessoAberto)
    (h : db cnj = some r) (h1 : r.lado_cliente ≠ none)
    (h2 : r.cliente_nome ≠ none) (h3 : r.cliente_cpf ≠ none) :
    ∃ r2, insertProcessosAbertos db processos cnj = some r2 ∧
      r2.lado_cliente = r.lado_cliente ∧ r2.cliente_nome = r.cliente_nome ∧
      r2.cliente_cpf = r.cliente_cpf :=
  aplicarUpsertRows_preserva ((dedupePorCnj processos).map toUpsertRow) db cnj r h

/-- Witness for C4: re-upserting the baseline case (list-derived fields
changed) over a store whose record has its represented side set keeps the
three represented-side fields. -/
theorem insertProcessosAbertos_preserva_lado_witness :
    ∃ r2, insertProcessosAbertos dbTesteC4
        [{ processoBase with juizo := "OUTRA VARA" }] "0000001-11.2024.8.24.0001" =
        some r2 ∧
      r2.lado_cliente = some Lado.requerente ∧
      r2.cliente_nome = some "FULANO DE TAL" ∧
      r2.cliente_cpf = some "11122233344" :=
  insertProcessosAbertos_preserva_lado dbTesteC4
    [{ processoBase with juizo := "OUTRA VARA" }] "0000001-11.2024.8.24.0001"
    { processoBase with
      lado_cliente := some Lado.requerente
      cliente_nome := some "FULANO DE TAL"
      cliente_cpf := some "11122233344" }
    (by decide) (by decide) (by decide) (by decide)

/-- Removing a fold step that leaves the accumulator unchanged does not change
the fold. -/
theorem foldl_step_id {α β : Type} (f : β → α → β) (p : α)
    (hstep : ∀ acc, f acc p = acc) (l1 l2 : List α) (init : β) :
    (l1 ++ p :: l2).foldl f init = (l1 ++ l2).foldl f init := by
  rw [List.foldl_append, List.foldl_append, List.foldl_cons, hstep]

/-- Claim C5: A per-case extraction failure is caught inside the per-case step
and yields the empty result for that case (no events, side not updated, zero
documents); the batch over any surrounding cases computes exactly what it
computes without the failing case — the failure of one case neither aborts nor
alters the processing of the others. -/
theorem extrairDetalhesProcessos_isolamento (resultado : ResultadoExtracao)
    (p : ProcessoAberto) (msg : String) (h : resultado p = Except.error msg)
    (l1 l2 : List ProcessoAberto) (maxPorCiclo : Nat)
    (hmax : (l1 ++ p :: l2).length ≤ maxPorCiclo) :
    extrairDetalhesProcessoR resultado p =
      { eventos := [], ladoAtualizado := false, documentosBaixados := 0 } ∧
    extrairDetalhesProcessos resultado (l1 ++ p :: l2) maxPorCiclo [] =
      extrairDetalhesProcessos resultado (l1 ++ l2) maxPorCiclo [] := by
  have hp : extrairDetalhesProcessoR resultado p =
      { eventos := [], ladoAtualizado := false, documentosBaixados := 0 } := by
    simp [extrairDetalhesProcessoR, h]
  refine ⟨hp, ?_⟩
  have hfil : ∀ l : List ProcessoAberto,
      l.filter (fun q => !(([] : List String).contains q.numero_cnj)) = l :=
    fun l => List.filter_eq_self.mpr (fun a _ => rfl)
  have hmax2 : (l1 ++ l2).length ≤ maxPorCiclo := by
    simp only [List.length_append, List.length_cons] at hmax ⊢
    omega
  by_cases hnil : l1 ++ l2 = []
  · obtain ⟨he1, he2⟩ := List.append_eq_nil.mp hnil
    subst he1
    subst he2
    have hmax1 : 1 ≤ maxPorCiclo := by simpa using hmax
    simp only [List.nil_append, extrairDetalhesProcessos, hfil]
    rw [List.take_of_length_le (by simpa using hmax)]
    simp [hp]
  · have hne1 : (l1 ++ p :: l2).isEmpty = false := by
      rcases l1 with - | ⟨a, t⟩ <;> rfl
    have hne2 : (l1 ++ l2).isEmpty = false := by
      rcases hl : l1 ++ l2 with - | ⟨a, t⟩
      · exact absurd hl hnil
      · rfl
    simp only [extrairDetalhesProcessos, hfil, hne1, hne2, Bool.false_eq_true,
      if_false]
    rw [List.take_of_length_le hmax, List.take_of_length_le hmax2]
    rw [foldl_step_id _ p (by intro acc; rw [hp]; rfl) l1 l2]
    simp

/-- Witness for C5: the middle case fails with a timeout; the batch of three
computes exactly what the batch without it computes. -/
theorem extrairDetalhesProcessos_isolamento_witness :
    extrairDetalhesProcessoR resultadoTesteC5 (processoCnj "0000002-22.2024.8.24.0002") =
      { eventos := [], ladoAtualizado := false, documentosBaixados := 0 } ∧
    extrairDetalhesProcessos resultadoTesteC5
      ([processoBase] ++ processoCnj "0000002-22.2024.8.24.0002" ::
        [processoCnj "0000003-33.2024.8.24.0003"]) 5 [] =
      extrairDetalhesProcessos resultadoTesteC5
        ([processoBase] ++ [processoCnj "0000003-33.2024.8.24.0003"]) 5 [] :=
  extrairDetalhesProcessos_isolamento resultadoTesteC5
    (processoCnj "0000002-22.2024.8.24.0002") "Timeout aguardando nova aba" rfl
    [processoBase] [processoCnj "0000003-33.2024.8.24.0003"] 5 (by decide)

/-- A left fold of `Nat.min` lands on its initial value or on a list element. -/
theorem foldl_min_mem (rs : List Nat) (r : Nat) :
    rs.foldl Nat.min r = r ∨ rs.foldl Nat.min r ∈ rs := by
  induction rs generalizing r with
  | nil => exact Or.inl rfl
  | cons y t ih =>
    rw [List.foldl_cons]
    rcases ih (Nat.min r y) with h | h
    · have hd : Nat.min r y = if r ≤ y then r else y := rfl
      rcases Nat.le_total r y with hry | hyr
      · have hm : Nat.min r y = r := by rw [hd, if_pos hry]
        exact Or.inl (h.trans hm)
      · have hm : Nat.min r y = y := by
          rw [hd]
          by_cases hc : r ≤ y
          · rw [if_pos hc]; omega
          · rw [if_neg hc]
        exact Or.inr (List.mem_cons.mpr (Or.inl (h.trans hm)))
    · exact Or.inr (List.mem_cons_of_mem y h)

/-- A left fold of `Nat.min` is a lower bound of its initial value and of
every list element. -/
theorem foldl_min_le (rs : List Nat) (r : Nat) :
    rs.foldl Nat.min r ≤ r ∧ ∀ x ∈ rs, rs.foldl Nat.min r ≤ x := by
  induction rs generalizing r with
  | nil => exact ⟨Nat.le_refl r, fun x hx => absurd hx (List.not_mem_nil x)⟩
  | cons y t ih =>
    obtain ⟨ha, hb⟩ := ih (Nat.min r y)
    rw [List.foldl_cons]
    have hd : Nat.min r y = if r ≤ y then r else y := rfl
    have hmin1 : Nat.min r y ≤ r := by
      rw [hd]
      by_cases hc : r ≤ y
      · rw [if_pos hc]
      · rw [if_neg hc]; omega
    have hmin2 : Nat.min r y ≤ y := by
      rw [hd]
      by_cases hc : r ≤ y
      · rw [if_pos hc]; omega
      · rw [if_neg hc]
    refine ⟨Nat.le_trans ha hmin1, ?_⟩
    intro x hx
    rcases List.mem_cons.mp hx with hx | hx
    · subst hx
      exact Nat.le_trans ha hmin2
    · exact hb x hx

/-- Claim C1: When some event is flagged `is_prazo_aberto` with a
referenced-event-number, the document-relevance selection uses as base the
minimum referenced number across all deadline-flagged events and returns
exactly the events with sequence number `>=` that minimum and a non-empty
attachment list, in ascending sequence-number order; when no event is
deadline-flagged it returns the empty list. -/
theorem identificarEventosComDocumentos_spec (eventos : List EventoProcesso) :
    ((∃ e ∈ eventos, e.is_prazo_aberto = true ∧ e.evento_referenciado.isSome) →
      ∃ base, base ∈ refsAbertos eventos ∧
        (∀ x ∈ refsAbertos eventos, base ≤ x) ∧
        (identificarEventosComDocumentos eventos).Perm
          (eventos.filter (fun e => decide (base ≤ numeroOuZero e) && temDocumentos e)) ∧
        (identificarEventosComDocumentos eventos).Pairwise
          (fun a b => numeroOuZero a ≤ numeroOuZero b)) ∧
    ((∀ e ∈ eventos, e.is_prazo_aberto = false) →
      identificarEventosComDocumentos eventos = []) := by
  constructor
  · rintro ⟨e, he, hflag, hsome⟩
    have hnonempty : eventos.isEmpty = false := by
      cases eventos with
      | nil => simp at he
      | cons a t => rfl
    have hmem : e ∈ prazosAbertosDe eventos :=
      List.mem_filter.mpr ⟨he, by simp [hflag, hsome]⟩
    have hrefs : refsAbertos eventos ≠ [] := by
      intro hcontra
      rw [refsAbertos, List.map_eq_nil_iff] at hcontra
      rw [hcontra] at hmem
      exact List.not_mem_nil e hmem
    obtain ⟨r, rs, hcons⟩ := List.exists_cons_of_ne_nil hrefs
    have hid : identificarEventosComDocumentos eventos =
        (eventos.filter
          (fun e => decide (rs.foldl Nat.min r ≤ numeroOuZero e) && temDocumentos e)).mergeSort
          (fun a b => decide (numeroOuZero a ≤ numeroOuZero b)) := by
      simp only [identificarEventosComDocumentos, hnonempty, hcons,
        Bool.false_eq_true, if_false]
    refine ⟨rs.foldl Nat.min r, ?_, ?_, ?_, ?_⟩
    · rw [hcons]
      rcases foldl_min_mem rs r with h | h
      · exact List.mem_cons.mpr (Or.inl h)
      · exact List.mem_cons_of_mem r h
    · intro x hx
      rw [hcons] at hx
      rcases List.mem_cons.mp hx with hx | hx
      · exact le_of_le_of_eq (foldl_min_le rs r).1 hx.symm
      · exact (foldl_min_le rs r).2 x hx
    · rw [hid]
      exact List.mergeSort_perm _ _
    · rw [hid]
      refine List.Pairwise.imp ?_ (List.sorted_mergeSort ?_ ?_
        (eventos.filter
          (fun e => decide (rs.foldl Nat.min r ≤ numeroOuZero e) && temDocumentos e)))
      · intro a b hab
        simpa using hab
      · intro a b c hab hbc
        simp only [decide_eq_true_eq] at hab hbc ⊢
        exact Nat.le_trans hab hbc
      · intro a b
        simp only [Bool.or_eq_true, decide_eq_true_eq]
        exact Nat.le_total (numeroOuZero a) (numeroOuZero b)
  · intro hnone
    have hpa : prazosAbertosDe eventos = [] :=
      List.filter_eq_nil_iff.mpr (fun a ha => by simp [hnone a ha])
    have hrefs : refsAbertos eventos = [] := by
      rw [refsAbertos, hpa]
      rfl
    rcases hvazio : eventos.isEmpty with - | -
    · simp only [identificarEventosComDocumentos, hvazio, hrefs,
        Bool.false_eq_true, if_false]
    · simp only [identificarEventosComDocumentos, hvazio, if_true]

/-- Witness for C1 at the example of the spec: deadline notices referencing bases
91, 95 and 88, with the selection governed by base 88. -/
theorem identificarEventosComDocumentos_spec_witness :
    ∃ base, base ∈ refsAbertos eventosTesteC1 ∧
      (∀ x ∈ refsAbertos eventosTesteC1, base ≤ x) ∧
      (identificarEventosComDocumentos eventosTesteC1).Perm
        (eventosTesteC1.filter
          (fun e => decide (base ≤ numeroOuZero e) && temDocumentos e)) ∧
      (identificarEventosComDocumentos eventosTesteC1).Pairwise
        (fun a b => numeroOuZero a ≤ numeroOuZero b) :=
  (identificarEventosComDocumentos_spec eventosTesteC1).1
    ⟨eventoTeste (some 108) true (some 91) none, by decide, by decide, by decide⟩

/-- A successful pattern match needs at least as many characters as the
pattern has classes. -/
theorem casaPadrao_length (pat : List (Char → Bool)) (cs : List Char)
    (h : casaPadrao pat cs = true) : pat.length ≤ cs.length := by
  induction pat generalizing cs with
  | nil => exact Nat.zero_le _
  | cons p ps ih =>
    cases cs with
    | nil => exact absurd h (by simp [casaPadrao])
    | cons c cs =>
      have := (Bool.and_eq_true _ _).mp h
      exact Nat.succ_le_succ (ih cs this.2)

/-- A match only looks at the first `pat.length` characters. -/
theorem casaPadrao_take (pat : List (Char → Bool)) (cs : List Char)
    (h : casaPadrao pat cs = true) : casaPadrao pat (cs.take pat.length) = true := by
  induction pat generalizing cs with
  | nil => rfl
  | cons p ps ih =>
    cases cs with
    | nil => exact absurd h (by simp [casaPadrao])
    | cons c cs =>
      have hph := (Bool.and_eq_true _ _).mp h
      simp only [List.length_cons, List.take_succ_cons, casaPadrao]
      exact (Bool.and_eq_true _ _).mpr ⟨hph.1, ih cs hph.2⟩

/-- A match of the leading characters survives appending a suffix. -/
theorem casaPadrao_append_of (pat : List (Char → Bool)) (m : List Char)
    (h : casaPadrao pat m = true) (post : List Char) :
    casaPadrao pat (m ++ post) = true := by
  induction pat generalizing m with
  | nil => rfl
  | cons p ps ih =>
    cases m with
    | nil => exact absurd h (by simp [casaPadrao])
    | cons c m =>
      have hph := (Bool.and_eq_true _ _).mp h
      simp only [List.cons_append, casaPadrao]
      exact (Bool.and_eq_true _ _).mpr ⟨hph.1, ih m hph.2⟩

/-- An exact match of `m` gives a match of any extension of `m`. -/
theorem casaPadrao_of_exato (m : List Char) (h : casaCnjExato m = true)
    (post : List Char) : casaPadrao padraoCnj (m ++ post) = true := by
  have hm := (Bool.and_eq_true _ _).mp h
  exact casaPadrao_append_of padraoCnj m hm.2 post

/-- Soundness of the leftmost search: a hit is an exact pattern match, occurs
in the string, and no exact match starts earlier. -/
theorem buscaCnj_sound (cs m : List Char) (h : buscaCnj cs = some m) :
    casaCnjExato m = true ∧
    ∃ pre post, cs = pre ++ m ++ post ∧
      ∀ pre2 m2 post2, cs = pre2 ++ m2 ++ post2 → casaCnjExato m2 = true →
        pre.length ≤ pre2.length := by
  induction cs with
  | nil => exact absurd h (by simp [buscaCnj])
  | cons c cs ih =>
    by_cases hc : casaPadrao padraoCnj (c :: cs) = true
    · have hm : m = (c :: cs).take padraoCnj.length := by
        have := h
        rw [buscaCnj, if_pos hc] at this
        exact (Option.some_inj.mp this).symm
      have hlen : padraoCnj.length ≤ (c :: cs).length := casaPadrao_length _ _ hc
      have hlentake : ((c :: cs).take padraoCnj.length).length = padraoCnj.length := by
        rw [List.length_take, Nat.min_def, if_pos hlen]
      refine ⟨?_, [], (c :: cs).drop padraoCnj.length, ?_, ?_⟩
      · rw [hm, casaCnjExato]
        exact (Bool.and_eq_true _ _).mpr
          ⟨by rw [hlentake]; exact beq_self_eq_true _, casaPadrao_take _ _ hc⟩
      · rw [hm, List.nil_append, List.take_append_drop]
      · intro pre2 m2 post2 heq2 hex2
        exact Nat.zero_le _
    · rw [buscaCnj, if_neg hc] at h
      obtain ⟨hex, pre, post, heq, hmin⟩ := ih h
      refine ⟨hex, c :: pre, post, by rw [List.cons_append, List.cons_append, heq], ?_⟩
      intro pre2 m2 post2 heq2 hex2
      cases pre2 with
      | nil =>
        rw [List.nil_append] at heq2
        exact absurd (heq2 ▸ casaPadrao_of_exato m2 hex2 post2) hc
      | cons c2 pre2 =>
        rw [List.cons_append, List.cons_append] at heq2
        have hc2 := List.cons_eq_cons.mp heq2
        exact Nat.succ_le_succ (hmin pre2 m2 post2 (by rw [hc2.2]) hex2)

/-- Completeness of the leftmost search: if an exact match occurs anywhere in
the string, the search finds one. -/
theorem buscaCnj_compl (cs : List Char)
    (h : ∃ pre m post, cs = pre ++ m ++ post ∧ casaCnjExato m = true) :
    (buscaCnj cs).isSome = true := by
  induction cs with
  | nil =>
    obtain ⟨pre, m, post, heq, hex⟩ := h
    obtain ⟨h1, h2⟩ := List.append_eq_nil.mp heq.symm
    obtain ⟨h3, h4⟩ := List.append_eq_nil.mp h1
    rw [h4, casaCnjExato] at hex
    exact absurd ((Bool.and_eq_true _ _).mp hex).1 (by decide)
  | cons c cs ih =>
    by_cases hc : casaPadrao padraoCnj (c :: cs) = true
    · rw [buscaCnj, if_pos hc]
      rfl
    · rw [buscaCnj, if_neg hc]
      obtain ⟨pre, m, post, heq, hex⟩ := h
      cases pre with
      | nil =>
        rw [List.nil_append] at heq
        exact absurd (heq ▸ casaPadrao_of_exato m hex post) hc
      | cons c2 pre =>
        rw [List.cons_append, List.cons_append] at heq
        have hc2 := List.cons_eq_cons.mp heq
        exact ih ⟨pre, m, post, hc2.2, hex⟩

/-- Claim C8, amended: Rows with fewer than 7 cells are dropped; for a row with
at least 7 cells, a record is produced exactly when the case cell contains a
substring that exactly matches the docket pattern, the extracted docket number
is such a substring and the leftmost one, and the row loop keeps or drops the
row accordingly. -/
theorem parseLinha_spec (cells : List String) :
    (cells.length < 7 → parseLinha cells = none) ∧
    (7 ≤ cells.length →
      ((parseLinha cells).isSome ↔
        ∃ pre m post, ((cells.get? 1).getD "").data = pre ++ m ++ post ∧
          casaCnjExato m = true)) ∧
    (∀ r, parseLinha cells = some r →
      casaCnjExato r.numero_cnj.data = true ∧
      ∃ pre post, ((cells.get? 1).getD "").data = pre ++ r.numero_cnj.data ++ post ∧
        ∀ pre2 m2 post2, ((cells.get? 1).getD "").data = pre2 ++ m2 ++ post2 →
          casaCnjExato m2 = true → pre.length ≤ pre2.length) ∧
    (parseLinha cells = none →
      ∀ rows, parseListaPrazos (cells :: rows) = parseListaPrazos rows) ∧
    (∀ r, parseLinha cells = some r →
      ∀ rows, parseListaPrazos (cells :: rows) = r :: parseListaPrazos rows) := by
  refine ⟨?_, ?_, ?_, ?_, ?_⟩
  · intro h
    rw [parseLinha, if_pos h]
  · intro h7
    have hn : ¬cells.length < 7 := Nat.not_lt.mpr h7
    constructor
    · intro hsome
      rcases hb : buscaCnj ((cells.get? 1).getD "").data with - | m
      · rw [parseLinha, if_neg hn, hb] at hsome
        exact absurd hsome (by simp)
      · obtain ⟨hex, pre, post, heq, -⟩ := buscaCnj_sound _ _ hb
        exact ⟨pre, m, post, heq, hex⟩
    · intro hex
      rcases hb : buscaCnj ((cells.get? 1).getD "").data with - | m
      · have := buscaCnj_compl _ hex
        rw [hb] at this
        exact absurd this (by simp)
      · rw [parseLinha, if_neg hn, hb]
        rfl
  · intro r hr
    have hn : ¬cells.length < 7 := by
      intro hlt
      rw [parseLinha, if_pos hlt] at hr
      exact Option.noConfusion hr
    rcases hb : buscaCnj ((cells.get? 1).getD "").data with - | m
    · rw [parseLinha, if_neg hn, hb] at hr
      exact Option.noConfusion hr
    · rw [parseLinha, if_neg hn, hb] at hr
      have hm : r.numero_cnj.data = m := by
        rw [← Option.some_inj.mp hr]
      obtain ⟨hex, pre, post, heq, hmin⟩ := buscaCnj_sound _ _ hb
      rw [hm]
      exact ⟨hex, pre, post, heq, hmin⟩
  · intro h rows
    rw [parseListaPrazos, List.filterMap_cons, h]
    rfl
  · intro r h rows
    rw [parseListaPrazos, List.filterMap_cons, h]
    rfl

/-- Witness for the amended C8 at a concrete well-formed row: the extracted
docket is the (leftmost) exactly-matching substring of the case cell. -/
theorem parseLinha_spec_witness :
    (parseLinha cellsTesteC8).isSome ∧
    ∃ r, parseLinha cellsTesteC8 = some r ∧
      casaCnjExato r.numero_cnj.data = true ∧
      ∃ pre post, ((cellsTesteC8.get? 1).getD "").data =
        pre ++ r.numero_cnj.data ++ post := by
  have h := parseLinha_spec cellsTesteC8
  have hsome : (parseLinha cellsTesteC8).isSome :=
    (h.2.1 (by decide)).mpr
      ⟨"<a href=x>".data, "1234567-89.0123.4.56.7890".data,
       "</a><br><b>Juizo: </b>CRM1CIV1J".data, by decide, by decide⟩
  refine ⟨hsome, ?_⟩
  rcases hr : parseLinha cellsTesteC8 with - | r
  · rw [hr] at hsome
    exact absurd hsome (by simp)
  · obtain ⟨hex, pre, post, heq, -⟩ := h.2.2.1 r hr
    exact ⟨r, rfl, hex, pre, post, heq⟩

/-- Counterexample to C8 as stated: a 6-cell row whose case cell holds a
well-formed docket number is nevertheless dropped from the parsed list. -/
theorem parseListaPrazos_cex :
    (∃ pre m post, ((cellsCurtaC8.get? 1).getD "").data = pre ++ m ++ post ∧
      casaCnjExato m = true) ∧
    parseListaPrazos [cellsCurtaC8] = [] := by
  constructor
  · exact ⟨[], "1234567-89.0123.4.56.7890".data, [], by decide, by decide⟩
  · decide

end Eproc
